import Mathlib

/-!
Verification of `build/sphinx/mongoc_common.py`: a Sphinx documentation-build
extension for the mongo-c-driver documentation.  The module has four small
components: a man-page collector (`_file_man_page_name` / `_collect_man`),
an analytics injector (`add_ga_javascript`), a version-list directive
(`VersionList.run`), and an HTML redirect generator (`generate_html_redirs`).

This file gives a shallow embedding of those functions and proves the spec
claims about them.  Files are modelled as their `read_text().splitlines()`
results (lists of lines); paths are modelled as strings or lists of path
components; the Sphinx callback machinery is modelled by passing the values
the callbacks actually consult (builder kind, context keys, configuration
flag, environment lookup) as explicit arguments.
-/

set_option autoImplicit false

namespace MongocCommon

/-- The set of characters matched by Python's regex class `\s` (the ASCII
whitespace characters; the source files involved are ASCII). -/
def isPySpace (c : Char) : Bool :=
  c = ' ' || c = '\t' || c = '\n' || c = '\r' || c = '\x0b' || c = '\x0c'

/-- `listStartsWith l p` is true when `p` is a prefix of `l` (the anchored
literal match used by `re.match` for the literal part of a pattern). -/
def listStartsWith : List Char → List Char → Bool
  | _, [] => true
  | [], _ :: _ => false
  | c :: cs, d :: ds => c == d && listStartsWith cs ds

/-- Leftmost-greedy match of the regex tail `\s*(.+)` against a character
list, returning the text captured by `(.+)`.  Greedily extends `\s*`;
on failure backtracks to start the capture at the current character.
`.` matches every character except a newline. -/
def wsStarCap : List Char → Option (List Char)
  | [] => none
  | c :: rest =>
    if isPySpace c then
      match wsStarCap rest with
      | some cap => some cap
      | none => if c = '\n' then none else some (c :: rest.takeWhile (fun d => d ≠ '\n'))
    else if c = '\n' then none else some (c :: rest.takeWhile (fun d => d ≠ '\n'))

/-- The literal part of the frontmatter pattern. -/
def manPageLit : List Char := ":man_page:".data

/-- `re.match(r":man_page:\s+(.+)", line)` on a character list: the pattern
must match at the very start of the line (`re.match` anchors at position 0);
returns the text captured by `(.+)`. -/
def matchManPageChars (cs : List Char) : Option (List Char) :=
  if listStartsWith cs manPageLit then
    match cs.drop 10 with
    | [] => none
    | c :: rest => if isPySpace c then wsStarCap rest else none
  else none

/-- `re.match(r":man_page:\s+(.+)", line)`, returning the captured group. -/
def matchManPage (line : String) : Option String :=
  (matchManPageChars line.data).map (fun l => String.mk l)

/-- `_file_man_page_name`: scan the file's lines in order; the first line
matching `:man_page:\s+(.+)` yields the captured value; `None` otherwise.
The file is modelled by its `splitlines()` result. -/
def file_man_page_name (lines : List String) : Option String :=
  lines.findSome? matchManPage

/-- `re.search` semantics for the same pattern, following the spec's words
for claim C9 ("matching the pattern anywhere in the line"): try an anchored
match at every start position, left to right. -/
def searchManPageChars : List Char → Option (List Char)
  | [] => matchManPageChars []
  | c :: rest =>
    match matchManPageChars (c :: rest) with
    | some cap => some cap
    | none => searchManPageChars rest

/-- Search-anywhere variant of `matchManPage` (spec's words, not the code). -/
def searchManPage (line : String) : Option String :=
  (searchManPageChars line.data).map (fun l => String.mk l)

/-- A regular entry of the `rglob` walk over the source directory: its path,
whether it is a regular file, its `Path.suffix`, and its text content as
`read_text().splitlines()`. -/
structure SrcFile where
  path : String
  is_file : Bool
  suffix : String
  lines : List String
  deriving Repr, DecidableEq

/-- `author` in the man-page tuples. -/
def author : String := "MongoDB, Inc"

/-- One element of `man_pages`: `(docname, man_name, "", [author], 3)`. -/
abbrev ManEntry := String × String × String × List String × Nat

/-- The `for filepath, man_name in pairs` loop of `_collect_man`: resolve
each file's docname via `proj.path2doc` and append the 5-tuple.  The
`assert docname, filepath` aborts the build (modelled as `Except.error`
carrying the filepath) when `path2doc` gives a falsy value (`None` or the
empty string). -/
def man_pages_loop (path2doc : String → Option String) (man_pages : List ManEntry) :
    List (SrcFile × String) → Except String (List ManEntry)
  | [] => .ok man_pages
  | (f, man_name) :: rest =>
    match path2doc f.path with
    | none => .error f.path
    | some docname =>
      if docname = "" then .error f.path
      else man_pages_loop path2doc (man_pages ++ [(docname, man_name, "", [author], 3)]) rest

/-- `_collect_man`: from the `rglob` result `children`, keep regular files
with a `.rst` suffix, pair each with its `:man_page:` frontmatter value,
drop files whose value is falsy (`None` or `""`), and run the append loop
starting from the empty `man_pages` list. -/
def collect_man (path2doc : String → Option String) (children : List SrcFile) :
    Except String (List ManEntry) :=
  let files := children.filter (fun f => f.is_file)
  let rst_files := files.filter (fun f => f.suffix == ".rst")
  let with_man_name := rst_files.map (fun f => (f, file_man_page_name f.lines))
  let pairs := with_man_name.filterMap (fun fm =>
    match fm.2 with
    | some m => if m = "" then none else some (fm.1, m)
    | none => none)
  man_pages_loop path2doc [] pairs


/-- The fixed analytics + NPS-survey HTML snippet that `add_ga_javascript`
appends (the triple-quoted string literal from the source, verbatim). -/
def ga_snippet : String := "\n<!-- Global site tag (gtag.js) - Google Analytics -->\n<script async src=\"https://www.googletagmanager.com/gtag/js?id=UA-7301842-14\"></script>\n<script>\n  window.dataLayer = window.dataLayer || [];\n  function gtag()\x7bdataLayer.push(arguments);\x7d\n  gtag(\x27js\x27, new Date());\n\n  gtag(\x27config\x27, \x27UA-7301842-14\x27);\n</script>\n<!--  NPS survey -->\n<script type=\"text/javascript\">\n  !function(e,t,r,n,a)\x7bif(!e[a])\x7bfor(var i=e[a]=[],s=0;s<r.length;s++)\x7bvar c=r[s];i[c]=i[c]||function(e)\x7breturn function()\x7bvar t=Array.prototype.slice.call(arguments);i.push([e,t])\x7d\x7d(c)\x7di.SNIPPET_VERSION=\"1.0.1\";var o=t.createElement(\"script\");o.type=\"text/javascript\",o.async=!0,o.src=\"https://d2yyd1h5u9mauk.cloudfront.net/integrations/web/v1/library/\"+n+\"/\"+a+\".js\";var l=t.getElementsByTagName(\"script\")[0];l.parentNode.insertBefore(o,l)\x7d\x7d(window,document,[\"survey\",\"reset\",\"config\",\"init\",\"set\",\"get\",\"event\",\"identify\",\"track\",\"page\",\"screen\",\"group\",\"alias\"],\"Dk30CC86ba0nATlK\",\"delighted\");\n\n  delighted.survey();\n</script>\n"

/-- `add_ga_javascript`: the `html-page-context` hook.  Only the
`analytics` configuration flag and the `metatags` entry of the render
context are consulted; the context's `metatags` entry is modelled as an
`Option String` (`none` = key absent).  Returns the `metatags` entry after
the hook runs: unchanged when the flag is falsy, otherwise
`context.get("metatags", "") + snippet`. -/
def add_ga_javascript (analytics : Bool) (metatags : Option String) : Option String :=
  if !analytics then metatags
  else some (metatags.getD "" ++ ga_snippet)

/-- A docutils node, restricted to the node kinds `VersionList.run`
constructs.  `reference` carries the node's text, its `internal` flag and
its `refuri`; container nodes carry their appended children in order. -/
inductive DNode where
  | paragraph (children : List DNode)
  | reference (text : String) (internal : Bool) (refuri : String)
  | bullet_list (children : List DNode)
  | list_item (children : List DNode)

/-- Python `str.split(sep)` for a one-character separator: always returns at
least one (possibly empty) piece, with no trimming or deduplication. -/
def pySplit (sep : Char) : List Char → List (List Char)
  | [] => [[]]
  | c :: rest =>
    if c = sep then [] :: pySplit sep rest
    else
      match pySplit sep rest with
      | [] => [c] :: []
      | w :: ws => (c :: w) :: ws

/-- Python `str.split(",")` on strings. -/
def pySplitComma (s : String) : List String :=
  (pySplit ',' s.data).map (fun l => String.mk l)

/-- Python `str.upper()` (the inputs here are ASCII). -/
def pyUpper (s : String) : String :=
  String.mk (s.data.map Char.toUpper)

/-- `VersionList.run`.  `env` is the `os.environ` lookup and `content` the
directive body's lines.  `none` models an uncaught exception: with an empty
body, `self.content[0]` raises `IndexError`.  Otherwise the result is the
returned node sequence: `[]` for an unrecognized library name or a missing
environment variable, and `[header, blist]` built from the comma-split
version list otherwise. -/
def VersionList.run (env : String → Option String) (content : List String) :
    Option (List DNode) :=
  match content with
  | [] => none
  | c0 :: _ =>
    if c0 ≠ "libmongoc" ∧ c0 ≠ "libbson" then some []
    else
      let libname := c0
      let env_name := pyUpper libname ++ "_VERSION_LIST"
      match env env_name with
      | none => some []
      | some val =>
        let versions := pySplitComma val
        let v0 := versions.headD ""
        let header := DNode.paragraph
          [ DNode.paragraph
              [ DNode.reference ("Latest Release (" ++ v0 ++ ")") false
                  ("https://www.mongoc.org/" ++ libname ++ "/" ++ v0 ++ "/index.html") ],
            DNode.paragraph
              [ DNode.reference "Current Development (master)" false
                  ("https://s3.amazonaws.com/mciuploads/mongo-c-driver/docs/" ++ libname
                    ++ "/latest/index.html") ] ]
        let blist := DNode.bullet_list (versions.map (fun v =>
          DNode.list_item
            [ DNode.paragraph
                [ DNode.reference v false
                    ("https://www.mongoc.org/" ++ libname ++ "/" ++ v ++ "/index.html") ] ]))
        some [header, blist]

/-- Python `str.endswith`. -/
def pyEndsWith (s suffixStr : String) : Bool :=
  listStartsWith s.data.reverse suffixStr.data.reverse

/-- A filesystem path, modelled as its list of components (`Path.parent`
drops the last component, `Path.name` is the last component). -/
abbrev FsPath := List String

/-- The components of a logical page path: `"a/b"` has components
`["a", "b"]`. -/
def pageComponents (page : String) : List String :=
  (pySplit '/' page.data).map (fun l => String.mk l)

/-- Modelled from the spec: the directory-style HTML builder's
`get_outfilename` (Sphinx's `DirectoryHTMLBuilder`, external to this
repository) emits each logical page as `<outdir>/<page>/index.html`
("an output layout where each logical page is emitted as
`<page>/index.html` rather than `<page>.html`"). -/
def dirhtml_get_outfilename (outdir : FsPath) (page : String) : FsPath :=
  outdir ++ pageComponents page ++ ["index.html"]

/-- The arguments of the single `builder.handle_page` call made by
`generate_html_redirs`: the synthetic page name, the two entries of the
context it passes (`target` and the presence of `writing-redirect`), the
template file's name, and the output file path. -/
structure RedirCall where
  pagename : String
  ctx_target : String
  ctx_has_writing_redirect : Bool
  templatefile : String
  outfile : FsPath
  deriving Repr, DecidableEq

/-- `generate_html_redirs`.  `is_dirhtml` models
`isinstance(builder, DirectoryHTMLBuilder)`; `ctx_has_writing_redirect`
models `"writing-redirect" in context`; `get_outfilename` is the builder's
output-path function.  Returns the `handle_page` call it performs, or
`none` when it returns without writing. -/
def generate_html_redirs (is_dirhtml : Bool) (ctx_has_writing_redirect : Bool)
    (get_outfilename : String → FsPath) (page : String) : Option RedirCall :=
  if !is_dirhtml || ctx_has_writing_redirect then none
  else if page = "index" || pyEndsWith page ".index" then none
  else
    let out_index_html := get_outfilename page
    let slug := (out_index_html.dropLast).getLastD ""
    let redirect_file := (out_index_html.dropLast).dropLast ++ [slug ++ ".html"]
    some { pagename := "redirect-for-" ++ page
           ctx_target := page
           ctx_has_writing_redirect := true
           templatefile := "redirect.t.html"
           outfile := redirect_file }

/-- The pair of guards a file must pass in the `_collect_man` pipeline,
together with its non-falsy man-page name. -/
def pairFn (f : SrcFile) : Option (SrcFile × String) :=
  if (f.suffix == ".rst") && f.is_file then
    match file_man_page_name f.lines with
    | some m => if m = "" then none else some (f, m)
    | none => none
  else none

/-! ### Helper lemmas -/

theorem wsStarCap_ne_nil : ∀ (cs cap : List Char), wsStarCap cs = some cap → cap ≠ []
  | [], cap, h => by simp [wsStarCap] at h
  | c :: rest, cap, h => by
    unfold wsStarCap at h
    by_cases hc : isPySpace c
    · simp only [hc, if_true] at h
      cases hrec : wsStarCap rest with
      | some cap2 =>
        rw [hrec] at h
        simp only [Option.some.injEq] at h
        exact h ▸ wsStarCap_ne_nil rest cap2 hrec
      | none =>
        rw [hrec] at h
        by_cases hn : c = '\n'
        · simp [hn] at h
        · simp only [hn, if_neg, ite_false] at h
          simp only [Option.some.injEq] at h
          simp [← h]
    · simp only [hc, if_false, Bool.false_eq_true, ite_false] at h
      by_cases hn : c = '\n'
      · simp [hn] at h
      · simp only [hn, ite_false] at h
        simp only [Option.some.injEq] at h
        simp [← h]

theorem matchManPageChars_ne_nil (cs cap : List Char) (h : matchManPageChars cs = some cap) :
    cap ≠ [] := by
  unfold matchManPageChars at h
  split at h
  · split at h
    · simp at h
    · split at h
      · exact wsStarCap_ne_nil _ _ h
      · simp at h
  · simp at h

theorem matchManPage_ne_some_empty (line : String) : matchManPage line ≠ some "" := by
  unfold matchManPage
  cases hm : matchManPageChars line.data with
  | none => simp
  | some cap =>
    have hne := matchManPageChars_ne_nil _ _ hm
    intro hcontra
    have h2 : some (String.mk cap) = some "" := hcontra
    exact hne (congrArg String.data (Option.some.inj h2))

theorem file_man_page_name_ne_some_empty (lines : List String) :
    file_man_page_name lines ≠ some "" := by
  intro h
  obtain ⟨l, _, hl⟩ := List.exists_of_findSome?_eq_some h
  exact matchManPage_ne_some_empty l hl

theorem pySplit_ne_nil : ∀ (sep : Char) (l : List Char), pySplit sep l ≠ []
  | _, [] => by simp [pySplit]
  | sep, c :: rest => by
    unfold pySplit
    split
    · simp
    · cases hrec : pySplit sep rest <;> simp

theorem pageComponents_ne_nil (page : String) : pageComponents page ≠ [] := by
  unfold pageComponents
  simp only [ne_eq, List.map_eq_nil_iff]
  exact pySplit_ne_nil '/' page.data

theorem getLastD_append_of_ne_nil {α : Type} (l₁ l₂ : List α) (d : α) (h : l₂ ≠ []) :
    (l₁ ++ l₂).getLastD d = l₂.getLastD d := by
  cases hl : l₂.getLast? with
  | none => exact absurd (List.getLast?_eq_none_iff.mp hl) h
  | some a => simp [List.getLastD_eq_getLast?, List.getLast?_append, hl]

theorem man_pages_loop_ok (p2d : String → Option String) :
    ∀ (pairs : List (SrcFile × String)) (acc out : List ManEntry),
      man_pages_loop p2d acc pairs = .ok out →
      out = acc ++ pairs.filterMap (fun fm =>
        (p2d fm.1.path).map (fun d => (d, fm.2, "", [author], 3)))
  | [], acc, out, h => by
    simp only [man_pages_loop, Except.ok.injEq] at h
    simp [h]
  | (f, m) :: rest, acc, out, h => by
    unfold man_pages_loop at h
    cases hp : p2d f.path with
    | none => rw [hp] at h; simp at h
    | some d =>
      rw [hp] at h
      by_cases hd : d = ""
      · simp [hd] at h
      · simp only [if_neg hd] at h
        have ih := man_pages_loop_ok p2d rest (acc ++ [(d, m, "", [author], 3)]) out h
        rw [ih]
        simp [List.filterMap_cons, hp]

theorem man_pages_loop_error (p2d : String → Option String) :
    ∀ (pairs : List (SrcFile × String)) (acc : List ManEntry) (f : SrcFile) (m : String),
      (f, m) ∈ pairs → p2d f.path = none →
      ∃ p, man_pages_loop p2d acc pairs = .error p
  | [], _, _, _, hmem, _ => absurd hmem (List.not_mem_nil _)
  | (f0, m0) :: rest, acc, f, m, hmem, hnone => by
    unfold man_pages_loop
    cases hp : p2d f0.path with
    | none => exact ⟨f0.path, rfl⟩
    | some d =>
      rcases List.mem_cons.mp hmem with heq | hmem'
      · rw [Prod.mk.injEq] at heq
        rw [heq.1] at hnone
        rw [hnone] at hp
        exact absurd hp (by simp)
      · by_cases hd : d = ""
        · exact ⟨f0.path, by simp [hd]⟩
        · have ih := man_pages_loop_error p2d rest
            (acc ++ [(d, m0, "", [author], 3)]) f m hmem' hnone
          simpa [hd] using ih

theorem collect_man_eq_loop (p2d : String → Option String) (children : List SrcFile) :
    collect_man p2d children = man_pages_loop p2d [] (children.filterMap pairFn) := by
  simp only [collect_man]
  congr 1
  rw [List.filter_filter, List.filterMap_map, List.filterMap_filter]
  apply List.filterMap_congr
  intro f _
  simp only [Function.comp, pairFn]

/-- Unfolding equation of `VersionList.run` for a nonempty body. -/
theorem versionlist_run_cons (env : String → Option String) (c0 : String)
    (rest : List String) :
    VersionList.run env (c0 :: rest) =
      (if c0 ≠ "libmongoc" ∧ c0 ≠ "libbson" then some []
       else
         let libname := c0
         let env_name := pyUpper libname ++ "_VERSION_LIST"
         match env env_name with
         | none => some []
         | some val =>
           let versions := pySplitComma val
           let v0 := versions.headD ""
           let header := DNode.paragraph
             [ DNode.paragraph
                 [ DNode.reference ("Latest Release (" ++ v0 ++ ")") false
                     ("https://www.mongoc.org/" ++ libname ++ "/" ++ v0 ++ "/index.html") ],
               DNode.paragraph
                 [ DNode.reference "Current Development (master)" false
                     ("https://s3.amazonaws.com/mciuploads/mongo-c-driver/docs/" ++ libname
                       ++ "/latest/index.html") ] ]
           let blist := DNode.bullet_list (versions.map (fun v =>
             DNode.list_item
               [ DNode.paragraph
                   [ DNode.reference v false
                       ("https://www.mongoc.org/" ++ libname ++ "/" ++ v ++ "/index.html") ] ]))
           some [header, blist]) :=
  rfl

/-! ### Claim theorems -/

/-- C3: with the `analytics` flag false the injector leaves the context's
`metatags` string (present or absent) byte-for-byte unchanged; with the
flag true the result is exactly the prior string (`""` when the key was
absent) with the fixed snippet appended at the end — never prepended,
never replacing prior content. -/
theorem add_ga_javascript_appends_snippet (metatags : Option String) :
    add_ga_javascript false metatags = metatags ∧
    add_ga_javascript true metatags = some (metatags.getD "" ++ ga_snippet) :=
  ⟨rfl, rfl⟩

/-- C4: with body `libmongoc` and `LIBMONGOC_VERSION_LIST="1.0,2.0,3.0"`,
the directive returns the header (whose "latest release" reference targets
version `1.0`, the first element of the comma-split list) followed by a
bullet list of exactly three items, one per version string, in input order
with no reordering or deduplication. -/
theorem versionlist_concrete_tree :
    VersionList.run
        (fun n => if n = "LIBMONGOC_VERSION_LIST" then some "1.0,2.0,3.0" else none)
        ["libmongoc"] =
      some
        [ DNode.paragraph
            [ DNode.paragraph
                [ DNode.reference "Latest Release (1.0)" false
                    "https://www.mongoc.org/libmongoc/1.0/index.html" ],
              DNode.paragraph
                [ DNode.reference "Current Development (master)" false
                    "https://s3.amazonaws.com/mciuploads/mongo-c-driver/docs/libmongoc/latest/index.html" ] ],
          DNode.bullet_list
            [ DNode.list_item
                [ DNode.paragraph
                    [ DNode.reference "1.0" false
                        "https://www.mongoc.org/libmongoc/1.0/index.html" ] ],
              DNode.list_item
                [ DNode.paragraph
                    [ DNode.reference "2.0" false
                        "https://www.mongoc.org/libmongoc/2.0/index.html" ] ],
              DNode.list_item
                [ DNode.paragraph
                    [ DNode.reference "3.0" false
                        "https://www.mongoc.org/libmongoc/3.0/index.html" ] ] ] ] :=
  rfl

/-- C5: with a nonempty body, an unrecognized library name or a missing
`<LIBRARY-UPPERCASE>_VERSION_LIST` environment variable makes the directive
return the empty node sequence (`some []`: it returns, it does not raise). -/
theorem versionlist_diag_empty (env : String → Option String) (c0 : String)
    (rest : List String)
    (h : (c0 ≠ "libmongoc" ∧ c0 ≠ "libbson") ∨ env (pyUpper c0 ++ "_VERSION_LIST") = none) :
    VersionList.run env (c0 :: rest) = some [] := by
  rw [versionlist_run_cons]
  rcases h with ⟨h1, h2⟩ | h3
  · rw [if_pos ⟨h1, h2⟩]
  · by_cases hv : c0 ≠ "libmongoc" ∧ c0 ≠ "libbson"
    · rw [if_pos hv]
    · rw [if_neg hv]
      simp [h3]

/-- Witness for C5: the `unknown` library with an empty environment. -/
theorem versionlist_diag_empty_witness :
    VersionList.run (fun _ => none) ["unknown"] = some [] :=
  versionlist_diag_empty (fun _ => none) "unknown" [] (Or.inl ⟨by decide, by decide⟩)

/-- C6: when a document has more than one `:man_page:` line, only the
first matching line's captured value is returned; later matching lines are
ignored. -/
theorem file_man_page_name_first_of_many (pre mid post : List String)
    (l1 l2 v1 v2 : String) (h0 : ∀ l ∈ pre, matchManPage l = none)
    (h1 : matchManPage l1 = some v1) (_h2 : matchManPage l2 = some v2) :
    file_man_page_name (pre ++ l1 :: (mid ++ l2 :: post)) = some v1 := by
  unfold file_man_page_name
  rw [List.findSome?_append, List.findSome?_eq_none_iff.mpr h0]
  simp [List.findSome?_cons, h1]

/-- Witness for C6: two `:man_page:` lines; the first wins. -/
theorem file_man_page_name_first_of_many_witness :
    file_man_page_name ["Doc title", ":man_page: first_page", ":man_page: second_page"] =
      some "first_page" :=
  file_man_page_name_first_of_many ["Doc title"] [] [] ":man_page: first_page"
    ":man_page: second_page" "first_page" "second_page" (by decide) rfl rfl

/-- C9 counterexample: the code uses `re.match`, which anchors at the start
of the line, so a line whose `:man_page:` marker is preceded by a character
does *not* declare a man-page name, although the pattern occurs in the line
(the search-anywhere reading of the claim finds `foo`). -/
theorem match_anywhere_counterexample :
    searchManPage " :man_page: foo" = some "foo" ∧
    file_man_page_name [" :man_page: foo"] = none :=
  ⟨rfl, rfl⟩

/-- C9 amended: for every line matching `:man_page:\s+(.+)` *at the start
of the line* (`re.match` semantics), and that is the first such line of the
document, the captured value becomes the document's man-page name. -/
theorem file_man_page_name_anchored_first (pre post : List String) (line v : String)
    (h0 : ∀ l ∈ pre, matchManPage l = none) (h1 : matchManPage line = some v) :
    file_man_page_name (pre ++ line :: post) = some v := by
  unfold file_man_page_name
  rw [List.findSome?_append, List.findSome?_eq_none_iff.mpr h0]
  simp [List.findSome?_cons, h1]

/-- Witness for the amended C9. -/
theorem file_man_page_name_anchored_first_witness :
    file_man_page_name ["ignored line", ":man_page: mongoc_init.3"] = some "mongoc_init.3" :=
  file_man_page_name_anchored_first ["ignored line"] [] ":man_page: mongoc_init.3"
    "mongoc_init.3" (by decide) rfl

/-- C10: with an empty directive body, `self.content[0]` raises
`IndexError` (modelled by `none`) instead of returning a node sequence;
with at least one body line the directive always returns a node sequence
(it never raises). -/
theorem versionlist_empty_body_raises :
    (∀ env : String → Option String, VersionList.run env [] = none) ∧
    (∀ (env : String → Option String) (c0 : String) (rest : List String),
      ∃ out, VersionList.run env (c0 :: rest) = some out) := by
  constructor
  · intro env
    rfl
  · intro env c0 rest
    rw [versionlist_run_cons]
    by_cases h : c0 ≠ "libmongoc" ∧ c0 ≠ "libbson"
    · exact ⟨[], by rw [if_pos h]⟩
    · rw [if_neg h]
      cases he : env (pyUpper c0 ++ "_VERSION_LIST") with
      | none => exact ⟨[], by simp [he]⟩
      | some v =>
        simp only [he]
        exact ⟨_, rfl⟩

/-- C1: when `_collect_man` completes without an assertion failure, the
`man_pages` list holds exactly one entry `(path2doc f, X, "", [author], 3)`
for each scanned regular `.rst` file `f` whose content has a
`:man_page: X` line, and no entry for any other scanned file. -/
theorem collect_man_one_entry_per_marked_doc (p2d : String → Option String)
    (children : List SrcFile) (out : List ManEntry)
    (h : collect_man p2d children = .ok out) :
    out = children.filterMap (fun f =>
      if f.is_file = true ∧ f.suffix = ".rst" then
        match file_man_page_name f.lines with
        | some m => (p2d f.path).map (fun d => (d, m, "", [author], 3))
        | none => none
      else none) := by
  rw [collect_man_eq_loop] at h
  have h2 := man_pages_loop_ok p2d _ [] out h
  rw [h2, List.nil_append, List.filterMap_filterMap]
  apply List.filterMap_congr
  intro f _
  by_cases h1 : f.is_file
  · by_cases hs : f.suffix = ".rst"
    · cases hm : file_man_page_name f.lines with
      | none => simp [pairFn, h1, hs, hm]
      | some m =>
        have hne : m ≠ "" := fun he => file_man_page_name_ne_some_empty f.lines (he ▸ hm)
        simp [pairFn, h1, hs, hm, hne]
    · simp [pairFn, h1, hs]
  · simp [pairFn, h1]

/-- Witness for C1: a scan with one marked `.rst` file, one unmarked `.rst`
file, one marked non-`.rst` file and one marked non-regular entry. -/
theorem collect_man_one_entry_per_marked_doc_witness :
    collect_man (fun p => some ("doc-" ++ p))
        [⟨"a.rst", true, ".rst", ["Title", ":man_page: a_page"]⟩,
         ⟨"b.rst", true, ".rst", ["no marker here"]⟩,
         ⟨"c.txt", true, ".txt", [":man_page: c_page"]⟩,
         ⟨"d.rst", false, ".rst", [":man_page: d_page"]⟩] =
      .ok [("doc-a.rst", "a_page", "", [author], 3)] ∧
    [("doc-a.rst", "a_page", "", [author], 3)] =
      ([⟨"a.rst", true, ".rst", ["Title", ":man_page: a_page"]⟩,
        ⟨"b.rst", true, ".rst", ["no marker here"]⟩,
        ⟨"c.txt", true, ".txt", [":man_page: c_page"]⟩,
        ⟨"d.rst", false, ".rst", [":man_page: d_page"]⟩] : List SrcFile).filterMap (fun f =>
          if f.is_file = true ∧ f.suffix = ".rst" then
            match file_man_page_name f.lines with
            | some m => ((fun p => some ("doc-" ++ p)) f.path).map
                (fun d => (d, m, "", [author], 3))
            | none => none
          else none) :=
  ⟨rfl, collect_man_one_entry_per_marked_doc (fun p => some ("doc-" ++ p)) _ _ rfl⟩

/-- C2: under the directory-style HTML builder, the generator performs one
`handle_page` write whose output file is named `<slug>.html` (the page's
last path component) and lives in the parent of the page's output
directory, i.e. as a sibling of that directory; and it writes nothing when
the builder is not the directory-style one, when the context carries the
`writing-redirect` marker, or when the page is `index` or ends in
`.index`. -/
theorem generate_html_redirs_sibling_file (outdir : FsPath) (page : String)
    (h1 : page ≠ "index") (h2 : pyEndsWith page ".index" = false) :
    (generate_html_redirs true false (dirhtml_get_outfilename outdir) page =
      some { pagename := "redirect-for-" ++ page
             ctx_target := page
             ctx_has_writing_redirect := true
             templatefile := "redirect.t.html"
             outfile := outdir ++ (pageComponents page).dropLast
               ++ [(pageComponents page).getLastD "" ++ ".html"] }) ∧
    (∀ (hw : Bool) (g : String → FsPath) (p : String),
      generate_html_redirs false hw g p = none) ∧
    (∀ (d : Bool) (g : String → FsPath) (p : String),
      generate_html_redirs d true g p = none) ∧
    (∀ (d hw : Bool) (g : String → FsPath),
      generate_html_redirs d hw g "index" = none) ∧
    (∀ (d hw : Bool) (g : String → FsPath) (p : String),
      pyEndsWith p ".index" = true → generate_html_redirs d hw g p = none) := by
  refine ⟨?_, ?_, ?_, ?_, ?_⟩
  · have hcomps := pageComponents_ne_nil page
    unfold generate_html_redirs
    rw [if_neg (by simp), if_neg (by simp [h1, h2])]
    unfold dirhtml_get_outfilename
    simp only [List.dropLast_concat]
    rw [List.dropLast_append_of_ne_nil outdir hcomps,
      getLastD_append_of_ne_nil outdir _ "" hcomps]
  · intro hw g p
    simp [generate_html_redirs]
  · intro d g p
    simp [generate_html_redirs]
  · intro d hw g
    unfold generate_html_redirs
    split
    · rfl
    · rw [if_pos (by simp)]
  · intro d hw g p hp
    unfold generate_html_redirs
    split
    · rfl
    · rw [if_pos (by simp [hp])]

/-- Witness for C2: page `a/b` is written to `<out>/a/b/index.html`; the
redirect goes to the sibling `<out>/a/b.html`. -/
theorem generate_html_redirs_sibling_file_witness :
    generate_html_redirs true false (dirhtml_get_outfilename ["out"]) "a/b" =
      some { pagename := "redirect-for-a/b"
             ctx_target := "a/b"
             ctx_has_writing_redirect := true
             templatefile := "redirect.t.html"
             outfile := ["out", "a", "b.html"] } :=
  (generate_html_redirs_sibling_file ["out"] "a/b" (by decide) (by decide)).1

/-- C7: every `handle_page` call the redirect generator makes passes a
context containing the `writing-redirect` key, and on any context carrying
that key the generator writes nothing — so the recursive `html-page-context`
invocation on a redirect page never triggers a second redirect write. -/
theorem generate_html_redirs_marker_guard :
    (∀ (d hw : Bool) (g : String → FsPath) (p : String) (call : RedirCall),
      generate_html_redirs d hw g p = some call →
      call.ctx_has_writing_redirect = true) ∧
    (∀ (d : Bool) (g : String → FsPath) (p : String),
      generate_html_redirs d true g p = none) := by
  constructor
  · intro d hw g p call h
    unfold generate_html_redirs at h
    split at h
    · exact absurd h (by simp)
    · split at h
      · exact absurd h (by simp)
      · simp only [Option.some.injEq] at h
        rw [← h]
  · intro d g p
    simp [generate_html_redirs]

/-- Witness for C7: the write for page `abc` carries the marker, and a
second invocation on a marker-carrying context writes nothing. -/
theorem generate_html_redirs_marker_guard_witness :
    (RedirCall.ctx_has_writing_redirect
        { pagename := "redirect-for-abc", ctx_target := "abc",
          ctx_has_writing_redirect := true, templatefile := "redirect.t.html",
          outfile := ["out", "abc.html"] } = true) ∧
    generate_html_redirs true true (fun p => ["out", p, "index.html"]) "abc" = none :=
  ⟨generate_html_redirs_marker_guard.1 true false (fun p => ["out", p, "index.html"]) "abc"
      _ rfl,
    generate_html_redirs_marker_guard.2 true (fun p => ["out", p, "index.html"]) "abc"⟩

/-- C8: if any scanned regular `.rst` file has a `:man_page:` line but its
path cannot be resolved to a docname, `_collect_man` aborts with the
assertion (an `Except.error` carrying a filepath) — it neither skips the
file nor appends a degenerate entry, and no `man_pages` list is produced. -/
theorem collect_man_asserts_on_unresolvable (p2d : String → Option String)
    (children : List SrcFile) (f : SrcFile) (m : String)
    (hmem : f ∈ children) (hfile : f.is_file = true) (hsuf : f.suffix = ".rst")
    (hman : file_man_page_name f.lines = some m) (hdoc : p2d f.path = none) :
    ∃ p, collect_man p2d children = .error p := by
  have hne : m ≠ "" := fun he => file_man_page_name_ne_some_empty f.lines (he ▸ hman)
  have hpair : (f, m) ∈ children.filterMap pairFn := by
    rw [List.mem_filterMap]
    exact ⟨f, hmem, by simp [pairFn, hfile, hsuf, hman, hne]⟩
  obtain ⟨p, hp⟩ := man_pages_loop_error p2d _ [] f m hpair hdoc
  exact ⟨p, by rw [collect_man_eq_loop]; exact hp⟩

/-- Witness for C8: one marked `.rst` file whose path resolves to no
docname. -/
theorem collect_man_asserts_on_unresolvable_witness :
    ∃ p, collect_man (fun _ => none)
        [⟨"doc/x.rst", true, ".rst", [":man_page: x_page"]⟩] = .error p :=
  collect_man_asserts_on_unresolvable (fun _ => none)
    [⟨"doc/x.rst", true, ".rst", [":man_page: x_page"]⟩]
    ⟨"doc/x.rst", true, ".rst", [":man_page: x_page"]⟩ "x_page"
    (by decide) rfl rfl rfl rfl

end MongocCommon
